import Mathlib

/-!
# Verification of the NORTIC validator's analysis orchestration engine

Shallow embedding of the core of `fcruzp/nortic-validator`:

* `DatabaseManager.updateAnalysis` and `DatabaseManager.deleteAnalysis`
  (src/src/models/database.ts, lines 204-255);
* `NorticAnalyzer.analyze` (nortic-analyzer.ts) — the orchestrator that owns
  one audit run: session acquisition, sequential category execution with
  failure containment, score aggregation, progress publication and
  finalization.

Conventions of the embedding:

* ISO-8601 timestamps are modelled by their epoch value in milliseconds
  (an integer); the JavaScript difference
  `new Date(b).getTime() - new Date(a).getTime()` becomes `b - a`.  The
  single wall-clock read at run finalization is `Env.endMs`.
* Category scores are integers: every rule evaluator returns
  `Math.round(totalScore / tests.length)` (see e.g. tests/seo.ts), and the
  spec types scores as integers 0-100.  The only non-integer reals in the
  orchestrator are the two `Math.round` arguments, which are kept as exact
  fractions (numerator / positive denominator) and rounded with
  `jsRoundDiv`; `Math.round NaN = NaN` is kept through `MeanVal`/`JSNum`.
* The free-form `details` JSON payload of a test result is omitted; every
  field a claim mentions is kept.
* Progress events are captured in publish order; `updateProgress` delivers
  an event exactly when a callback is registered for the run id
  (`Env.sinkRegistered`), which is fixed for the duration of a run.
* Database writes are modelled as always succeeding except for the bulk
  persistence of accumulated test results / violations after the category
  loop, where `Env.saveFails` injects a rejection into the first write (the
  path through the orchestrator's outer catch that does not come from the
  session manager).
-/

namespace Nortic

/-! ## JavaScript rounding and numbers -/

/-- Value of `Math.round(a / b)` for an integer numerator and a positive
integer denominator: the nearest integer to `a / b`, half-up, i.e.
`⌊a/b + 1/2⌋ = (2a + b) / (2b)` with floor division. -/
def jsRoundDiv (a : ℤ) (b : ℕ) : ℤ := (2 * a + b) / (2 * b)

/-- Result of the JavaScript division `sum / length` before rounding:
`NaN` when the aggregator divides by zero (`0 / 0`), otherwise the exact
fraction. -/
inductive MeanVal where
  | nan : MeanVal
  | frac : ℤ → ℕ → MeanVal
deriving DecidableEq, Repr

/-- A JavaScript number as stored in `overall_score`: `NaN` or an
integer (the value is always the output of `Math.round`). -/
inductive JSNum where
  | nan : JSNum
  | val : ℤ → JSNum
deriving DecidableEq, Repr

/-- Lifting of `Math.round` to the division result; `Math.round(NaN)` is
`NaN`. -/
def MeanVal.round : MeanVal → JSNum
  | .nan => .nan
  | .frac a b => .val (jsRoundDiv a b)

/-- JavaScript comparison `x >= c`; every comparison with `NaN` is
`false`. -/
def JSNum.ge : JSNum → ℤ → Bool
  | .nan, _ => false
  | .val q, c => decide (c ≤ q)

/-! ## Result aggregation (nortic-analyzer.ts, `analyze`)

Source, lines 1691-1697 of the concatenated file:
`const scores = Object.values(categoryResults).map(r => r.score);`
`const overallScore = Math.round(scores.reduce((sum, score) => sum + score, 0) / scores.length);`
then the `complianceLevel` ladder.
-/

/-- JavaScript division `scores.reduce((sum, score) => sum + score, 0) /
scores.length`: the reduce of the empty list is `0` and `0 / 0` is `NaN`,
otherwise the exact fraction `sum / length`. -/
def meanJS (scores : List ℤ) : MeanVal :=
  if scores.length = 0 then MeanVal.nan
  else MeanVal.frac scores.sum scores.length

/-- Model of `Math.round(scores.reduce(...) / scores.length)`. -/
def overallScoreJS (scores : List ℤ) : JSNum :=
  (meanJS scores).round

/-- Compliance-level ladder applied to the rounded overall score.  The
code's literal labels are Spanish; they correspond to the spec's tier
names: `Excelente` = Excellent, `Cumple` = Compliant, `Parcial` = Partial,
`No Cumple` = Non-compliant.  Every comparison with `NaN` is false, so a
`NaN` overall score falls through to the default label. -/
def complianceLevelJS (o : JSNum) : String :=
  if o.ge 90 then "Excelente"
  else if o.ge 80 then "Cumple"
  else if o.ge 60 then "Parcial"
  else "No Cumple"

/-- Derived status of one category outcome (line 1651):
`score >= 80 ? 'passed' : score >= 60 ? 'warning' : 'failed'`. -/
def catStatus (score : ℤ) : String :=
  if 80 ≤ score then "passed" else if 60 ≤ score then "warning" else "failed"

/-! ## Persistent data model (database.ts) -/

/-- One row of `nortic_analyses` (interface `NorticAnalysis`).  Timestamps
are epoch milliseconds, `none` models SQL `NULL`. -/
structure AnalysisRow where
  id : String
  url : String
  status : String
  overall_score : Option JSNum := none
  compliance_level : Option String := none
  start_time : ℤ
  end_time : Option ℤ := none
  duration : Option ℤ := none
  updated_at : ℤ := 0
deriving DecidableEq, Repr

/-- One row of `test_results` (interface `TestResult`); the free-form
`details` payload is omitted. -/
structure TestResult where
  analysis_id : String
  category : String
  test_name : String
  status : String
  score : Option ℤ := none
  message : Option String := none
deriving DecidableEq, Repr

/-- One row of `accessibility_violations` (interface
`AccessibilityViolation`). -/
structure Violation where
  analysis_id : String
  rule_id : String
  impact : String
  description : String
deriving DecidableEq, Repr

/-- Shape of `Partial<NorticAnalysis>` as passed to `updateAnalysis`: a
field is `some v` when the key is present in the update object (`id` is
filtered out by the method and is not representable here; `created_at` and
`updated_at` are never passed by callers). -/
structure AnalysisUpdates where
  url : Option String := none
  status : Option String := none
  overall_score : Option JSNum := none
  compliance_level : Option String := none
  start_time : Option ℤ := none
  end_time : Option ℤ := none
  duration : Option ℤ := none
deriving DecidableEq, Repr

/-- Test of `Object.keys(updates).filter(key => key !== 'id').length === 0`. -/
def AnalysisUpdates.isEmpty (u : AnalysisUpdates) : Bool :=
  u.url.isNone && u.status.isNone && u.overall_score.isNone &&
  u.compliance_level.isNone && u.start_time.isNone && u.end_time.isNone &&
  u.duration.isNone

/-- Effect of the generated `UPDATE nortic_analyses SET ..., updated_at = ?`
on a single row: each present field is assigned, `updated_at` is set to the
current time. -/
def applyUpdates (r : AnalysisRow) (u : AnalysisUpdates) (now : ℤ) : AnalysisRow :=
  { r with
    url := u.url.getD r.url
    status := u.status.getD r.status
    overall_score := match u.overall_score with
      | some v => some v
      | none => r.overall_score
    compliance_level := match u.compliance_level with
      | some v => some v
      | none => r.compliance_level
    start_time := u.start_time.getD r.start_time
    end_time := match u.end_time with
      | some v => some v
      | none => r.end_time
    duration := match u.duration with
      | some v => some v
      | none => r.duration
    updated_at := now }

/-- Model of `DatabaseManager.updateAnalysis` (database.ts:204-220): if no
updatable field is present the call returns immediately; otherwise the row
whose `id` matches is overwritten with the present fields — there is no
check of any kind on the current status of the row. -/
def updateAnalysis (db : List AnalysisRow) (id : String) (u : AnalysisUpdates)
    (now : ℤ) : List AnalysisRow :=
  if u.isEmpty then db
  else db.map (fun r => if r.id = id then applyUpdates r u now else r)

/-- The three tables touched by `deleteAnalysis`. -/
structure DB where
  analyses : List AnalysisRow
  testResults : List TestResult
  violations : List Violation
deriving DecidableEq, Repr

/-- Model of `DatabaseManager.deleteAnalysis` (database.ts:229-255).  The
three `DELETE` statements run inside one transaction; `failAt = some k`
injects a failure into the `k`-th delete, upon which the transaction is
rolled back (the original state is restored) and the error is rethrown,
modelled by the second component being `none`.  On success the second
component is `some (changes > 0)` where `changes` counts the rows removed
from `nortic_analyses` by the third delete. -/
def deleteAnalysis (db : DB) (id : String) (failAt : Option (Fin 3)) :
    DB × Option Bool :=
  if failAt = some 0 then (db, none)
  else
    let db1 : DB := { db with testResults := db.testResults.filter (fun t => t.analysis_id != id) }
    if failAt = some 1 then (db, none)
    else
      let db2 : DB := { db1 with violations := db1.violations.filter (fun v => v.analysis_id != id) }
      if failAt = some 2 then (db, none)
      else
        let changes := db2.analyses.countP (fun a => a.id == id)
        let db3 : DB := { db2 with analyses := db2.analyses.filter (fun a => a.id != id) }
        (db3, some (decide (0 < changes)))

/-! ## The orchestrator: `NorticAnalyzer.analyze` -/

/-- Outcome of `page.goto(url, ...)`: the navigation threw (timeout or
network error with the given message), returned no response object, or
returned a response with the given HTTP status code. -/
inductive NavResult where
  | errNav : String → NavResult
  | noResponse : NavResult
  | resp : ℕ → NavResult
deriving DecidableEq, Repr

/-- Behaviour of one category's rule evaluator, `runAllTests()`: either a
result `{score, tests, violations?}` or a thrown error with the given
message. -/
inductive EvalResult where
  | ok : ℤ → List TestResult → List Violation → EvalResult
  | err : String → EvalResult
deriving DecidableEq, Repr

/-- Environment of one `analyze(url, analysisId, options)` call: everything
the outside world decides. -/
structure Env where
  url : String
  analysisId : String
  /-- `options.testCategories`; `none` selects the default six. -/
  testCategories : Option (List String) := none
  nav : NavResult
  evalFor : String → EvalResult
  sinkRegistered : Bool := false
  /-- Injected rejection of the first bulk write of accumulated results
  after the category loop (`some message`), or `none` for success. -/
  saveFails : Option String := none
  startMs : ℤ
  endMs : ℤ

/-- A progress event as assembled by `updateProgress` (the partial update
merged over the default template). -/
structure ProgressUpdate where
  analysisId : String
  status : String
  progress : ℤ
  currentTest : Option String
  completedTests : ℕ
  totalTests : ℕ := 36
  error : Option String := none
deriving DecidableEq, Repr

/-- Event helper: the merged update always carries the run id and
`totalTests = 36`. -/
def mkEvent (id status : String) (progress : ℤ) (currentTest : Option String)
    (completedTests : ℕ) (error : Option String) : ProgressUpdate :=
  { analysisId := id
    status := status
    progress := progress
    currentTest := currentTest
    completedTests := completedTests
    error := error }

/-- The six known category tags (switch cases of the category loop). -/
def knownCategories : List String :=
  ["usabilidad", "diseno", "contenido", "seguridad", "seo", "accesibilidad"]

/-- Default category selection (line 1572):
`options.testCategories || ['usabilidad', ...]`.  A provided empty array is
truthy in JavaScript, so `some []` selects no categories. -/
def selectedCategories (env : Env) : List String :=
  env.testCategories.getD knownCategories

/-- Display names of the categories (the `testNames` map);
`testNames[category] || category`. -/
def testNames (c : String) : String :=
  if c = "usabilidad" then "Pruebas de Usabilidad"
  else if c = "diseno" then "Pruebas de Diseño y Layout"
  else if c = "contenido" then "Pruebas de Contenido"
  else if c = "seguridad" then "Pruebas de Seguridad"
  else if c = "seo" then "Pruebas de SEO"
  else if c = "accesibilidad" then "Pruebas de Accesibilidad"
  else c

/-- Test of `list starts with pat` on character lists. -/
def startsWithSeq : List Char → List Char → Bool
  | _, [] => true
  | [], _ :: _ => false
  | a :: s, b :: p => if a = b then startsWithSeq s p else false

/-- Test of `pat occurs in s` on character lists. -/
def containsSeq : List Char → List Char → Bool
  | [], p => startsWithSeq [] p
  | a :: rest, p => startsWithSeq (a :: rest) p || containsSeq rest p

/-- JavaScript `s.includes(pat)`. -/
def strIncludes (s pat : String) : Bool := containsSeq s.toList pat.toList

/-- Message classification of a navigation error (lines 1526-1533). -/
def navErrorMessage (url m : String) : String :=
  if strIncludes m "timeout" then
    "Tiempo de espera agotado al cargar " ++ url ++ ". El sitio puede estar lento o no responder."
  else if strIncludes m "net::ERR_" then
    "Error de red al acceder a " ++ url ++ ". Verifique que la URL sea correcta y el sitio esté disponible."
  else "Error al cargar la página: " ++ m

/-- Message classification of a bad HTTP status (lines 1546-1557). -/
def httpErrorMessage (url : String) (status : ℕ) : String :=
  if status = 404 then "Página no encontrada (404) en " ++ url
  else if status = 500 then "Error interno del servidor (500) en " ++ url ++ ". El sitio puede tener problemas técnicos."
  else if status = 403 then "Acceso denegado (403) a " ++ url ++ ". El sitio puede bloquear análisis automatizados."
  else if 500 ≤ status then "Error del servidor (" ++ toString status ++ ") en " ++ url ++ ". El sitio tiene problemas técnicos."
  else "El servidor respondió con código " ++ toString status

/-- Row built by `saveErrorAsTestResult` (the `errorTestResult` object,
lines 1429-1444): a failed result with score 0 recording the error message;
`currentTest || 'Error del Sistema'` and
`error.message || 'Error desconocido durante el análisis'`. -/
def errorTestResult (id cat currentTest msg : String) : TestResult :=
  { analysis_id := id
    category := cat
    test_name := if currentTest = "" then "Error del Sistema" else currentTest
    status := "failed"
    score := some 0
    message := some (if msg = "" then "Error desconocido durante el análisis" else msg) }

/-- Progress value published at the start of one category iteration
(line 1603): `15 + Math.round((completedCategories / totalCategories) * 70)`. -/
def catProgress (n c : ℕ) : ℤ := 15 + jsRoundDiv (70 * c) n

/-- Mutable state of the category loop (lines 1578-1669): the
`categoryResults` object (kept in key-insertion order), the accumulated
`allTestResults` and `allViolations`, the test-result rows already written
to the database by `saveErrorAsTestResult`, the count
`completedCategories`, the events published so far, and the two `current*`
cursor variables. -/
structure CatState where
  results : List (String × ℤ × String) := []
  allTests : List TestResult := []
  allViolations : List Violation := []
  savedErr : List TestResult := []
  completed : ℕ := 0
  events : List ProgressUpdate := []
  currentTestName : String
  currentCategory : String
deriving Repr

/-- Assignment `obj[k] = v` on a JavaScript object kept as an ordered
association list: an existing key keeps its position, a new key is
appended. -/
def objSet : List (String × ℤ × String) → String → ℤ × String → List (String × ℤ × String)
  | [], k, v => [(k, v.1, v.2)]
  | (k', s', st') :: rest, k, v =>
      if k' = k then (k, v.1, v.2) :: rest
      else (k', s', st') :: objSet rest k v

/-- Lookup in the `categoryResults` object. -/
def lookupRes : List (String × ℤ × String) → String → Option (ℤ × String)
  | [], _ => none
  | (k, s, st) :: rest, c => if k = c then some (s, st) else lookupRes rest c

/-- One iteration of the category loop (lines 1594-1669) for category `c`
with `n = totalCategories`: set the cursor variables, publish the progress
event, then dispatch on the category tag.  A known category either
succeeds (recording its outcome and accumulating its tests, and for
`accesibilidad` its violations) or throws (caught in the loop: the error is
written as a failed test result, the outcome becomes score 0 / failed);
both count as completed.  An unknown tag hits `default: continue`. -/
def catStep (env : Env) (n : ℕ) (st : CatState) (c : String) : CatState :=
  let tn := "Ejecutando " ++ testNames c
  let ev := mkEvent env.analysisId "in_progress" (catProgress n st.completed)
      (some tn) (2 + st.completed * 6) none
  let st := { st with
    currentTestName := tn
    currentCategory := c
    events := st.events ++ [ev] }
  if c ∈ knownCategories then
    match env.evalFor c with
    | .ok score tests viols =>
        let st := if c = "accesibilidad"
          then { st with allViolations := st.allViolations ++ viols }
          else st
        { st with
          results := objSet st.results c (score, catStatus score)
          allTests := st.allTests ++ tests
          completed := st.completed + 1 }
    | .err msg =>
        { st with
          savedErr := st.savedErr ++ [errorTestResult env.analysisId c tn msg]
          results := objSet st.results c (0, "failed")
          completed := st.completed + 1 }
  else st

/-- The category loop: left-to-right iteration over the selected list. -/
def runCats (env : Env) (n : ℕ) : List String → CatState → CatState
  | [], st => st
  | c :: rest, st => runCats env n rest (catStep env n st c)

/-- Observable outcome of one `analyze` call: the run's row after the
final `updateAnalysis`, the test-result and violation rows persisted for
the run, the final `categoryResults` object, the progress events published
and those delivered to the sink, the page bookkeeping of the `finally`
block, and the rethrown error message if the call threw. -/
structure RunResult where
  row : AnalysisRow
  tests : List TestResult
  violations : List Violation
  categoryResults : List (String × ℤ × String) := []
  published : List ProgressUpdate
  events : List ProgressUpdate
  pageCreated : Bool
  pageOpen : Bool
  thrown : Option String
deriving Repr

/-- Row written by `createAnalysis` at the start of the run (lines
1462-1468): status `in_progress`, no score, no end time, no duration. -/
def initialRow (env : Env) : AnalysisRow :=
  { id := env.analysisId
    url := env.url
    status := "in_progress"
    start_time := env.startMs }

/-- Duration computed on the completed path (line 1700):
`Math.round((end - start) / 1000)`; the difference may be negative and is
not clamped. -/
def durationOf (env : Env) : ℤ := jsRoundDiv (env.endMs - env.startMs) 1000

/-- Events published at fixed points of `analyze`: 5% after the run row is
created, 10% before navigation, 15% after a successful load, 90% before
bulk persistence, 100% on completion. -/
def ev5 (env : Env) : ProgressUpdate :=
  mkEvent env.analysisId "in_progress" 5 (some "Inicializando navegador") 0 none

/-- Event published before navigation (10%). -/
def ev10 (env : Env) : ProgressUpdate :=
  mkEvent env.analysisId "in_progress" 10 (some "Cargando página web") 1 none

/-- Event published after a successful page load (15%). -/
def ev15 (env : Env) : ProgressUpdate :=
  mkEvent env.analysisId "in_progress" 15
    (some "Página cargada exitosamente. Iniciando análisis") 2 none

/-- Event published before bulk persistence of results (90%). -/
def ev90 (env : Env) : ProgressUpdate :=
  mkEvent env.analysisId "in_progress" 90 (some "Guardando resultados") 34 none

/-- Final event of a completed run (100%). -/
def ev100 (env : Env) : ProgressUpdate :=
  mkEvent env.analysisId "completed" 100 none 36 none

/-- The outer catch block plus the `finally` block (lines 1723-1753): save
the error as a `system`-side test result under the current cursor
variables, mark the run `failed` with an end time but no duration, publish
the final failed event with progress 0 and the error message, rethrow, and
close the page. -/
def finishFail (env : Env) (published : List ProgressUpdate)
    (testsSoFar : List TestResult) (catResults : List (String × ℤ × String))
    (ctn cc msg : String) : RunResult :=
  let errorMessage := if msg = "" then "Error desconocido durante el análisis" else msg
  let tests := testsSoFar ++ [errorTestResult env.analysisId cc ctn msg]
  let row := applyUpdates (initialRow env)
    { status := some "failed", end_time := some env.endMs } env.endMs
  let failEv := mkEvent env.analysisId "failed" 0 none 0 (some errorMessage)
  let published := published ++ [failEv]
  { row := row
    tests := tests
    violations := []
    categoryResults := catResults
    published := published
    events := if env.sinkRegistered then published else []
    pageCreated := true
    pageOpen := false
    thrown := some errorMessage }

/-- The happy tail of `analyze` (lines 1671-1721): persist accumulated
results, aggregate, finalize the row as `completed` with score, tier, end
time and duration, publish the final 100% event, and close the page. -/
def completeRun (env : Env) (st : CatState) (published : List ProgressUpdate) :
    RunResult :=
  let scores := st.results.map (fun r => r.2.1)
  let overall := overallScoreJS scores
  let row := applyUpdates (initialRow env)
    { status := some "completed"
      overall_score := some overall
      compliance_level := some (complianceLevelJS overall)
      end_time := some env.endMs
      duration := some (durationOf env) } env.endMs
  let published := published ++ [ev100 env]
  { row := row
    tests := st.savedErr ++ st.allTests
    violations := st.allViolations
    categoryResults := st.results
    published := published
    events := if env.sinkRegistered then published else []
    pageCreated := true
    pageOpen := false
    thrown := none }

/-- State of the loop variables when the category loop starts. -/
def mainInit : CatState :=
  { currentTestName := "Página cargada exitosamente. Iniciando análisis"
    currentCategory := "system" }

/-- Final state of the category loop over the selected categories. -/
def mainState (env : Env) : CatState :=
  runCats env (selectedCategories env).length (selectedCategories env) mainInit

/-- Events published by the time the happy path reaches bulk persistence:
the fixed 5/10/15% events, the per-category events, then the 90% event. -/
def mainPublished (env : Env) : List ProgressUpdate :=
  [ev5 env, ev10 env, ev15 env] ++ (mainState env).events ++ [ev90 env]

/-- The part of `analyze` after a successful navigation with an acceptable
HTTP status (lines 1564 onward): publish the 15% event, run the category
loop, publish the 90% event, then either persist and complete, or hit the
injected persistence failure and take the outer catch with the loop's
final cursor variables (nothing is written when there is nothing
accumulated to write, so in that case the injected rejection cannot fire
and the run still completes). -/
def analyzeMain (env : Env) : RunResult :=
  let st := mainState env
  match env.saveFails with
  | some m =>
      if st.allTests.isEmpty && st.allViolations.isEmpty then
        completeRun env st (mainPublished env)
      else
        finishFail env (mainPublished env) st.savedErr st.results
          "Guardando resultados" st.currentCategory m
  | none => completeRun env st (mainPublished env)

/-- Model of `NorticAnalyzer.analyze` (lines 1454-1754).  The analysis row
is created, the 5% and 10% events are published, the page is created, and
navigation is attempted.  A thrown navigation error, a missing response and
a status >= 400 each write one classified test result (`navigation` or
`http`) and throw into the outer catch; otherwise the category loop and the
happy tail run. -/
def analyze (env : Env) : RunResult :=
  match env.nav with
  | .errNav m =>
      finishFail env [ev5 env, ev10 env]
        [errorTestResult env.analysisId "navigation" "Cargando página web" m]
        [] "Cargando página web" "system" (navErrorMessage env.url m)
  | .noResponse =>
      finishFail env [ev5 env, ev10 env]
        [errorTestResult env.analysisId "navigation" "Cargando página web"
          ("No se pudo obtener respuesta del servidor para " ++ env.url)]
        [] "Cargando página web" "system"
        ("No se pudo obtener respuesta del servidor para " ++ env.url)
  | .resp status =>
      if 400 ≤ status then
        finishFail env [ev5 env, ev10 env]
          [errorTestResult env.analysisId "http" "Cargando página web"
            (httpErrorMessage env.url status)]
          [] "Cargando página web" "system" (httpErrorMessage env.url status)
      else
        analyzeMain env

/-- Outcome a processed known category always receives in
`categoryResults`, read off the evaluator's behaviour: the returned score
with its derived status, or score 0 / failed when the evaluator throws. -/
def expectedOutcome (env : Env) (c : String) : ℤ × String :=
  match env.evalFor c with
  | .ok score _ _ => (score, catStatus score)
  | .err _ => (0, "failed")

/-- Page slot of the analyzer; `none` models `this.page === null`. -/
structure PageSlot where
  page : Option ℕ
deriving DecidableEq, Repr

/-- The `finally` block's cleanup (lines 1746-1753): close the page if one
is open and null the slot; a second invocation finds the slot empty and
does nothing. -/
def releasePage (s : PageSlot) : PageSlot :=
  match s.page with
  | some _ => { page := none }
  | none => s



/-! ## Concrete environments used by counterexamples and witnesses -/

/-- Run in which the target is navigable and the six default categories
score [100, 100, 100, 100, 100, 40]. -/
def envSix : Env :=
  { url := "https://ejemplo.gob.do"
    analysisId := "run-six"
    nav := NavResult.resp 200
    evalFor := fun c => if c = "accesibilidad" then .ok 40 [] [] else .ok 100 [] []
    sinkRegistered := true
    startMs := 0
    endMs := 2000 }

/-- Run in which the `seguridad` evaluator throws mid-run and the other
five categories score 90 each. -/
def envSecurity : Env :=
  { url := "https://ejemplo.gob.do"
    analysisId := "run-sec"
    nav := NavResult.resp 200
    evalFor := fun c => if c = "seguridad" then .err "Error de DOM" else .ok 90 [] []
    sinkRegistered := true
    startMs := 0
    endMs := 1000 }

/-- Run in which navigation throws a network error. -/
def envNavErr : Env :=
  { url := "https://caido.gob.do"
    analysisId := "run-nav"
    nav := NavResult.errNav "net::ERR_CONNECTION_REFUSED"
    evalFor := fun _ => .ok 0 [] []
    sinkRegistered := true
    startMs := 0
    endMs := 1000 }

/-- Run whose target answers HTTP 404. -/
def env404 : Env :=
  { url := "https://ejemplo.gob.do/no-existe"
    analysisId := "run-404"
    nav := NavResult.resp 404
    evalFor := fun _ => .ok 0 [] []
    sinkRegistered := true
    startMs := 0
    endMs := 1000 }

/-- Completed run whose end timestamp precedes its start timestamp (clock
went backwards between the two reads). -/
def envNegDur : Env :=
  { url := "https://ejemplo.gob.do"
    analysisId := "run-neg"
    nav := NavResult.resp 200
    evalFor := fun _ => .ok 90 [] []
    sinkRegistered := false
    startMs := 3000
    endMs := 1500 }

/-- A finalized (completed) analysis row. -/
def rowCompleted : AnalysisRow :=
  { id := "run-1"
    url := "https://ejemplo.gob.do"
    status := "completed"
    overall_score := some (JSNum.val 85)
    compliance_level := some "Cumple"
    start_time := 0
    end_time := some 60000
    duration := some 60
    updated_at := 60000 }

/-- A second finalize payload carrying the other terminal status. -/
def finalizeFailed : AnalysisUpdates :=
  { status := some "failed", end_time := some 61000 }

/-- A database with one completed run, its rows, and rows of another run. -/
def dbEx : DB :=
  { analyses := [rowCompleted]
    testResults :=
      [{ analysis_id := "run-1", category := "seo", test_name := "Meta",
         status := "passed", score := some 100 },
       { analysis_id := "run-2", category := "seo", test_name := "Meta",
         status := "failed", score := some 0 }]
    violations :=
      [{ analysis_id := "run-1", rule_id := "image-alt", impact := "serious",
         description := "Falta texto alternativo" }] }

/-! ## Basic lemmas about the embedded arithmetic -/

theorem jsRoundDiv_eq_floor (a : ℤ) (b : ℕ) (hb : 0 < b) :
    jsRoundDiv a b = ⌊(a : ℚ) / b + 1/2⌋ := by
  have h1 : (a : ℚ) / b + 1/2 = ((2 * a + b : ℤ) : ℚ) / ((2 * b : ℕ) : ℚ) := by
    have hb0 : ((b : ℚ)) ≠ 0 := by positivity
    push_cast
    field_simp
    ring
  rw [h1, Rat.floor_intCast_div_natCast]
  rfl

theorem jsRoundDiv_mono {a a' : ℤ} (b : ℕ) (hb : 0 < b) (h : a ≤ a') :
    jsRoundDiv a b ≤ jsRoundDiv a' b := by
  rw [jsRoundDiv_eq_floor a b hb, jsRoundDiv_eq_floor a' b hb]
  apply Int.floor_mono
  have hd : (a : ℚ) / b ≤ (a' : ℚ) / b := by
    apply div_le_div_of_nonneg_right ?_ ?_ |>.trans_eq rfl
    · exact_mod_cast h
    · positivity
  linarith

theorem jsRoundDiv_nonneg (a : ℤ) (b : ℕ) (ha : 0 ≤ a) : 0 ≤ jsRoundDiv a b := by
  unfold jsRoundDiv
  apply Int.ediv_nonneg <;> positivity

theorem jsRoundDiv_le_seventy {c n : ℕ} (hn : 0 < n) (h : c ≤ n) :
    jsRoundDiv (70 * c) n ≤ 70 := by
  rw [jsRoundDiv_eq_floor _ _ hn]
  have h2 : ((70 * c : ℤ) : ℚ) / n ≤ 70 := by
    rw [div_le_iff₀ (by positivity)]
    push_cast
    nlinarith [(Nat.cast_le (α := ℚ)).mpr h]
  have h4 := Int.floor_mono (show ((70 * (c : ℕ) : ℤ) : ℚ) / n + 1/2 ≤ (70 : ℚ) + 1/2 by
    push_cast at h2 ⊢
    linarith)
  have h5 : ⌊(70 : ℚ) + 1/2⌋ = 70 := by norm_num [Int.floor_eq_iff]
  push_cast at h4 ⊢
  omega

theorem catProgress_ge (n c : ℕ) : 15 ≤ catProgress n c := by
  unfold catProgress
  have := jsRoundDiv_nonneg (70 * c) n (by positivity)
  omega

theorem catProgress_mono (n : ℕ) {c c' : ℕ} (h : c ≤ c') :
    catProgress n c ≤ catProgress n c' := by
  rcases Nat.eq_zero_or_pos n with hn | hn
  · subst hn
    unfold catProgress jsRoundDiv
    norm_num
  · unfold catProgress
    have := jsRoundDiv_mono n hn (show (70 * (c : ℤ)) ≤ 70 * (c' : ℤ) by
      have : (c : ℤ) ≤ (c' : ℤ) := by exact_mod_cast h
      linarith)
    omega

theorem catProgress_le (n : ℕ) {c : ℕ} (hn : 0 < n) (h : c ≤ n) :
    catProgress n c ≤ 85 := by
  unfold catProgress
  have := jsRoundDiv_le_seventy hn h
  omega

/-! ## Lemmas about the `categoryResults` object -/

theorem lookupRes_objSet_self (l : List (String × ℤ × String)) (k : String)
    (v : ℤ × String) : lookupRes (objSet l k v) k = some v := by
  induction l with
  | nil => simp [objSet, lookupRes]
  | cons hd tl ih =>
    obtain ⟨k0, s0, st0⟩ := hd
    by_cases h0 : k0 = k
    · subst h0
      simp [objSet, lookupRes]
    · simp [objSet, lookupRes, h0, ih]

theorem lookupRes_objSet_ne (l : List (String × ℤ × String)) {k k' : String}
    (v : ℤ × String) (h : k' ≠ k) :
    lookupRes (objSet l k v) k' = lookupRes l k' := by
  induction l with
  | nil =>
    simp only [objSet, lookupRes]
    rw [if_neg fun hk => h hk.symm]
  | cons hd tl ih =>
    obtain ⟨k0, s0, st0⟩ := hd
    by_cases h0 : k0 = k
    · subst h0
      simp only [objSet, if_pos rfl, lookupRes]
      rw [if_neg fun hk => h hk.symm, if_neg fun hk => h hk.symm]
    · simp only [objSet, if_neg h0, lookupRes]
      by_cases h1 : k0 = k'
      · rw [if_pos h1, if_pos h1]
      · rw [if_neg h1, if_neg h1]
        exact ih

/-! ## Structural lemmas about one loop iteration -/

theorem catStep_events (env : Env) (n : ℕ) (st : CatState) (c : String) :
    (catStep env n st c).events = st.events ++
      [mkEvent env.analysisId "in_progress" (catProgress n st.completed)
        (some ("Ejecutando " ++ testNames c)) (2 + st.completed * 6) none] := by
  unfold catStep
  by_cases hc : c ∈ knownCategories
  · simp only [if_pos hc]
    rcases henv : env.evalFor c with ⟨score, tests, viols⟩ | msg
    · by_cases hca : c = "accesibilidad" <;> simp [hca]
    · simp
  · simp [hc]

theorem catStep_completed (env : Env) (n : ℕ) (st : CatState) (c : String) :
    (catStep env n st c).completed = st.completed ∨
    (catStep env n st c).completed = st.completed + 1 := by
  unfold catStep
  by_cases hc : c ∈ knownCategories
  · simp only [if_pos hc]
    rcases henv : env.evalFor c with ⟨score, tests, viols⟩ | msg
    · by_cases hca : c = "accesibilidad" <;> simp [hca]
    · simp
  · simp [hc]

theorem catStep_results (env : Env) (n : ℕ) (st : CatState) (c : String) :
    (catStep env n st c).results =
      if c ∈ knownCategories then objSet st.results c (expectedOutcome env c)
      else st.results := by
  unfold catStep expectedOutcome
  by_cases hc : c ∈ knownCategories
  · simp only [if_pos hc]
    rcases henv : env.evalFor c with ⟨score, tests, viols⟩ | msg
    · by_cases hca : c = "accesibilidad" <;> simp [hca, henv]
    · simp [henv]
  · simp [hc]

theorem catStep_savedErr_mono (env : Env) (n : ℕ) (st : CatState) (c : String) :
    ∃ tl, (catStep env n st c).savedErr = st.savedErr ++ tl := by
  unfold catStep
  by_cases hc : c ∈ knownCategories
  · simp only [if_pos hc]
    rcases henv : env.evalFor c with ⟨score, tests, viols⟩ | msg
    · by_cases hca : c = "accesibilidad" <;> exact ⟨[], by simp [hca]⟩
    · exact ⟨[errorTestResult env.analysisId c ("Ejecutando " ++ testNames c) msg],
        by simp⟩
  · exact ⟨[], by simp [hc]⟩

theorem catStep_savedErr_err (env : Env) (n : ℕ) (st : CatState) {c m : String}
    (hc : c ∈ knownCategories) (he : env.evalFor c = .err m) :
    (catStep env n st c).savedErr = st.savedErr ++
      [errorTestResult env.analysisId c ("Ejecutando " ++ testNames c) m] := by
  unfold catStep
  simp [hc, he]

/-! ## Invariants of the category loop -/

theorem runCats_savedErr_mono (env : Env) (n : ℕ) (l : List String)
    (st : CatState) :
    ∃ tl, (runCats env n l st).savedErr = st.savedErr ++ tl := by
  induction l generalizing st with
  | nil => exact ⟨[], by simp [runCats]⟩
  | cons c rest ih =>
    obtain ⟨tl1, h1⟩ := catStep_savedErr_mono env n st c
    obtain ⟨tl2, h2⟩ := ih (catStep env n st c)
    exact ⟨tl1 ++ tl2, by simp [runCats, h2, h1]⟩

theorem runCats_savedErr_err (env : Env) (n : ℕ) (l : List String)
    (st : CatState) {c m : String} (hcl : c ∈ l) (hc : c ∈ knownCategories)
    (he : env.evalFor c = .err m) :
    errorTestResult env.analysisId c ("Ejecutando " ++ testNames c) m ∈
      (runCats env n l st).savedErr := by
  induction l generalizing st with
  | nil => cases hcl
  | cons d rest ih =>
    rcases List.mem_cons.mp hcl with rfl | hmem
    · obtain ⟨tl, h2⟩ := runCats_savedErr_mono env n rest (catStep env n st c)
      have h1 := catStep_savedErr_err env n st hc he
      rw [runCats, h2, h1]
      simp
    · exact ih (catStep env n st d) hmem

theorem runCats_lookup_pres (env : Env) (n : ℕ) (l : List String)
    (st : CatState) {c : String}
    (h : lookupRes st.results c = some (expectedOutcome env c)) :
    lookupRes (runCats env n l st).results c = some (expectedOutcome env c) := by
  induction l generalizing st with
  | nil => simpa [runCats] using h
  | cons d rest ih =>
    rw [runCats]
    apply ih
    rw [catStep_results]
    by_cases hd : d ∈ knownCategories
    · rw [if_pos hd]
      by_cases hdc : c = d
      · subst hdc
        exact lookupRes_objSet_self ..
      · rw [lookupRes_objSet_ne _ _ hdc]
        exact h
    · rw [if_neg hd]
      exact h

theorem runCats_lookup_mem (env : Env) (n : ℕ) (l : List String)
    (st : CatState) {c : String} (hcl : c ∈ l) (hc : c ∈ knownCategories) :
    lookupRes (runCats env n l st).results c = some (expectedOutcome env c) := by
  induction l generalizing st with
  | nil => cases hcl
  | cons d rest ih =>
    rcases List.mem_cons.mp hcl with rfl | hmem
    · rw [runCats]
      apply runCats_lookup_pres
      rw [catStep_results, if_pos hc]
      exact lookupRes_objSet_self ..
    · exact ih (catStep env n st d) hmem

/-! ## Progress-event invariant of the category loop -/

theorem chain_append_last {xs : List ℤ} {p : ℤ} (hc : List.Chain' (· ≤ ·) xs)
    (hb : ∀ x ∈ xs, x ≤ p) : List.Chain' (· ≤ ·) (xs ++ [p]) := by
  apply hc.append (List.chain'_singleton p)
  intro x hx y hy
  simp only [List.head?_cons, Option.mem_def, Option.some.injEq] at hy
  subst hy
  obtain ⟨hne, rfl⟩ := List.mem_getLast?_eq_getLast hx
  exact hb _ (List.getLast_mem hne)

theorem runCats_events_inv (env : Env) {n : ℕ} (l : List String)
    (st : CatState) (hlen : st.completed + l.length ≤ n)
    (hch : List.Chain' (· ≤ ·) (st.events.map (fun e => e.progress)))
    (hbd : ∀ e ∈ st.events, 15 ≤ e.progress ∧
      e.progress ≤ catProgress n st.completed) :
    List.Chain' (· ≤ ·) ((runCats env n l st).events.map (fun e => e.progress)) ∧
    (∀ e ∈ (runCats env n l st).events, 15 ≤ e.progress ∧
      e.progress ≤ catProgress n (runCats env n l st).completed) ∧
    (runCats env n l st).completed ≤ n := by
  induction l generalizing st with
  | nil =>
    refine ⟨hch, hbd, ?_⟩
    simpa using hlen
  | cons c rest ih =>
    rw [runCats]
    set st' := catStep env n st c with hst'
    have hev := catStep_events env n st c
    have hco : st.completed ≤ st'.completed ∧ st'.completed ≤ st.completed + 1 := by
      rcases catStep_completed env n st c with h | h <;> rw [hst'] <;> omega
    apply ih
    · have : rest.length + 1 = (c :: rest).length := by simp
      omega
    · rw [hev]
      simp only [List.map_append, List.map_cons, List.map_nil]
      apply chain_append_last hch
      intro x hx
      simp only [List.mem_map] at hx
      obtain ⟨e, he, rfl⟩ := hx
      simp [mkEvent]
      exact (hbd e he).2
    · intro e he
      rw [hev] at he
      rcases List.mem_append.mp he with he | he
      · obtain ⟨h1, h2⟩ := hbd e he
        exact ⟨h1, h2.trans (catProgress_mono n hco.1)⟩
      · simp only [List.mem_singleton] at he
        subst he
        simp only [mkEvent]
        exact ⟨catProgress_ge n st.completed, catProgress_mono n hco.1⟩

/-! ## Projections of the two terminal constructions -/

theorem finishFail_row (env : Env) (pub : List ProgressUpdate)
    (tests : List TestResult) (cr : List (String × ℤ × String))
    (ctn cc msg : String) :
    (finishFail env pub tests cr ctn cc msg).row.status = "failed" ∧
    (finishFail env pub tests cr ctn cc msg).row.end_time = some env.endMs ∧
    (finishFail env pub tests cr ctn cc msg).row.duration = none ∧
    (finishFail env pub tests cr ctn cc msg).row.overall_score = none ∧
    (finishFail env pub tests cr ctn cc msg).row.compliance_level = none :=
  ⟨rfl, rfl, rfl, rfl, rfl⟩

theorem completeRun_row (env : Env) (st : CatState) (pub : List ProgressUpdate) :
    (completeRun env st pub).row.status = "completed" ∧
    (completeRun env st pub).row.end_time = some env.endMs ∧
    (completeRun env st pub).row.duration = some (durationOf env) ∧
    (completeRun env st pub).row.overall_score =
      some (overallScoreJS (st.results.map (fun r => r.2.1))) ∧
    (completeRun env st pub).row.compliance_level =
      some (complianceLevelJS (overallScoreJS (st.results.map (fun r => r.2.1)))) :=
  ⟨rfl, rfl, rfl, rfl, rfl⟩

theorem finishFail_events (env : Env) (pub : List ProgressUpdate)
    (tests : List TestResult) (cr : List (String × ℤ × String))
    (ctn cc msg : String) (hs : env.sinkRegistered = true) :
    (finishFail env pub tests cr ctn cc msg).events = pub ++
      [mkEvent env.analysisId "failed" 0 none 0
        (some (if msg = "" then "Error desconocido durante el análisis" else msg))] := by
  simp [finishFail, hs]

theorem completeRun_events (env : Env) (st : CatState)
    (pub : List ProgressUpdate) (hs : env.sinkRegistered = true) :
    (completeRun env st pub).events = pub ++ [ev100 env] := by
  simp [completeRun, hs]

theorem finishFail_tests (env : Env) (pub : List ProgressUpdate)
    (tests : List TestResult) (cr : List (String × ℤ × String))
    (ctn cc msg : String) :
    (finishFail env pub tests cr ctn cc msg).tests =
      tests ++ [errorTestResult env.analysisId cc ctn msg] := rfl

theorem completeRun_tests (env : Env) (st : CatState)
    (pub : List ProgressUpdate) :
    (completeRun env st pub).tests = st.savedErr ++ st.allTests := rfl

/-! ## Shape of one run: every execution ends in one of the two terminal
constructions -/

theorem analyze_shape (env : Env) :
    (∃ pub tests cr ctn cc msg, analyze env =
        finishFail env pub tests cr ctn cc msg) ∨
    analyze env = completeRun env (mainState env) (mainPublished env) := by
  unfold analyze analyzeMain
  rcases env.nav with m | _ | status
  · exact Or.inl ⟨_, _, _, _, _, _, rfl⟩
  · exact Or.inl ⟨_, _, _, _, _, _, rfl⟩
  · dsimp only
    by_cases h4 : 400 ≤ status
    · rw [if_pos h4]
      exact Or.inl ⟨_, _, _, _, _, _, rfl⟩
    · rw [if_neg h4]
      rcases env.saveFails with _ | m
      · exact Or.inr rfl
      · dsimp only
        by_cases hemp : ((mainState env).allTests.isEmpty &&
            (mainState env).allViolations.isEmpty) = true
        · rw [if_pos hemp]
          exact Or.inr rfl
        · rw [if_neg hemp]
          exact Or.inl ⟨_, _, _, _, _, _, rfl⟩

/-! ## Claim C1 — idempotence of finalize -/

/-- C1 counterexample: a second finalize call for a run already recorded as
`completed` is neither rejected nor a no-op — `updateAnalysis` overwrites
the terminal status with the different terminal status `failed`. -/
theorem updateAnalysis_second_finalize_cex :
    rowCompleted.status = "completed" ∧
    (updateAnalysis [rowCompleted] "run-1" finalizeFailed 61000).map
      (fun r => r.status) = ["failed"] := by decide

/-- C1 amended: `updateAnalysis` applies the present fields of the update
unconditionally to the row with the given id; there is no terminal-status
guard, so whenever the update carries a status, the row ends with exactly
that status regardless of the status — terminal or not — it had before.  A
repeated finalize with identical arguments happens to leave the row's
fields unchanged, but a finalize carrying a different status overwrites
the recorded terminal status. -/
theorem updateAnalysis_applies_unconditionally (db : List AnalysisRow)
    (id : String) (u : AnalysisUpdates) (now : ℤ) (s : String)
    (hu : u.status = some s) :
    ∀ r ∈ updateAnalysis db id u now, r.id = id → r.status = s := by
  intro r hr hid
  unfold updateAnalysis at hr
  have hne : u.isEmpty = false := by
    unfold AnalysisUpdates.isEmpty
    rw [hu]
    simp
  rw [if_neg (by simp [hne])] at hr
  simp only [List.mem_map] at hr
  obtain ⟨r0, hr0, rfl⟩ := hr
  by_cases h0 : r0.id = id
  · rw [if_pos h0]
    show (applyUpdates r0 u now).status = s
    unfold applyUpdates
    simp [hu]
  · rw [if_neg h0] at hid ⊢
    exact absurd hid h0

/-- C1 witness: the amended theorem applied to the concrete second
finalize call of the counterexample. -/
theorem updateAnalysis_applies_unconditionally_witness :
    (applyUpdates rowCompleted finalizeFailed 61000).status = "failed" := by
  have h := updateAnalysis_applies_unconditionally [rowCompleted] "run-1"
    finalizeFailed 61000 "failed" rfl
  exact h (applyUpdates rowCompleted finalizeFailed 61000) (by decide) (by decide)

/-! ## Claim C2 — terminal rows carry end time and duration -/

/-- C2 counterexample: a run that fails (here: navigation throws a network
error) is recorded with status `failed` and an end time but **no**
duration — the failed finalize call only sets `status` and `end_time`. -/
theorem analyze_failed_duration_cex :
    (analyze envNavErr).row.status = "failed" ∧
    (analyze envNavErr).row.end_time = some 1000 ∧
    (analyze envNavErr).row.duration = none := by decide

/-- C2 amended: a completed run has both `end_time` and
`duration = Math.round((end - start) / 1000)` set — with no clamping, so
the duration is negative when the end timestamp precedes the start
timestamp; a failed run has `end_time` set but `duration` absent; and the
row as created (pending/in-progress) has both absent. -/
theorem analyze_terminal_fields (env : Env) :
    ((analyze env).row.status = "completed" →
      (analyze env).row.end_time = some env.endMs ∧
      (analyze env).row.duration = some (durationOf env)) ∧
    ((analyze env).row.status = "failed" →
      (analyze env).row.end_time = some env.endMs ∧
      (analyze env).row.duration = none) ∧
    (initialRow env).status = "in_progress" ∧
    (initialRow env).end_time = none ∧ (initialRow env).duration = none := by
  rcases analyze_shape env with ⟨pub, tests, cr, ctn, cc, msg, h⟩ | h
  · obtain ⟨h1, h2, h3, _, _⟩ := finishFail_row env pub tests cr ctn cc msg
    rw [h]
    refine ⟨fun hc => absurd (h1.symm.trans hc) (by decide),
      fun _ => ⟨h2, h3⟩, rfl, rfl, rfl⟩
  · obtain ⟨h1, h2, h3, _, _⟩ := completeRun_row env (mainState env) (mainPublished env)
    rw [h]
    refine ⟨fun _ => ⟨h2, h3⟩,
      fun hf => absurd (h1.symm.trans hf) (by decide), rfl, rfl, rfl⟩

/-- C2 witness: the amended theorem applied to a failed run (duration
absent) and to a completed run whose clock went backwards (duration
negative, not clamped). -/
theorem analyze_terminal_fields_witness :
    ((analyze envNavErr).row.end_time = some 1000 ∧
      (analyze envNavErr).row.duration = none) ∧
    ((analyze envNegDur).row.end_time = some 1500 ∧
      (analyze envNegDur).row.duration = some (durationOf envNegDur)) ∧
    durationOf envNegDur = -1 := by
  refine ⟨?_, ?_, by decide⟩
  · exact (analyze_terminal_fields envNavErr).2.1 (by decide)
  · exact (analyze_terminal_fields envNegDur).1 (by decide)

/-! ## Claim C4 — aggregation of executed category scores -/

/-- C4 counterexample: for the empty score list the division by zero is
not guarded — the overall score is `NaN` (`Math.round(0 / 0)`), not `0`,
and the derived compliance level falls through to the default label. -/
theorem overallScore_empty_nan_cex :
    overallScoreJS [] = JSNum.nan ∧ JSNum.nan ≠ JSNum.val 0 ∧
    complianceLevelJS (overallScoreJS []) = "No Cumple" := by decide

/-- C4 amended: for a nonempty list of executed category outcomes the
aggregation returns `round(mean of the scores)` (half-up); for the empty
list the unguarded `0 / 0` makes the overall score `NaN` rather than 0. -/
theorem overallScore_mean_or_nan (scores : List ℤ) :
    (scores ≠ [] → overallScoreJS scores =
      JSNum.val ⌊(scores.sum : ℚ) / scores.length + 1/2⌋) ∧
    (scores = [] → overallScoreJS scores = JSNum.nan) := by
  constructor
  · intro h
    have hl : 0 < scores.length := List.length_pos.mpr h
    unfold overallScoreJS meanJS
    rw [if_neg (by omega)]
    simp [MeanVal.round, jsRoundDiv_eq_floor _ _ hl]
  · intro h
    subst h
    rfl

/-- C4 witness: the amended theorem applied to a nonempty and to the empty
score list. -/
theorem overallScore_mean_or_nan_witness :
    overallScoreJS [100, 40] = JSNum.val 70 ∧ overallScoreJS [] = JSNum.nan := by
  constructor
  · have h := (overallScore_mean_or_nan [100, 40]).1 (by decide)
    rw [h]
    norm_num [Int.floor_eq_iff]
  · exact (overallScore_mean_or_nan []).2 rfl

/-! ## Claim C5 — compliance tiers -/

/-- C5: the tier ladder applied to the rounded overall score:
`s ≥ 90` Excellent (`Excelente`), `80 ≤ s ≤ 89` Compliant (`Cumple`),
`60 ≤ s ≤ 79` Partial (`Parcial`), `s < 60` Non-compliant (`No Cumple`), so
in particular 90 is Excellent, 89 and 80 Compliant and 79 Partial (see the
witness). -/
theorem complianceLevel_thresholds (s : ℤ) :
    (90 ≤ s → complianceLevelJS (JSNum.val s) = "Excelente") ∧
    (80 ≤ s ∧ s ≤ 89 → complianceLevelJS (JSNum.val s) = "Cumple") ∧
    (60 ≤ s ∧ s ≤ 79 → complianceLevelJS (JSNum.val s) = "Parcial") ∧
    (s < 60 → complianceLevelJS (JSNum.val s) = "No Cumple") := by
  unfold complianceLevelJS JSNum.ge
  refine ⟨fun h => ?_, fun h => ?_, fun h => ?_, fun h => ?_⟩
  · rw [if_pos (by simpa using h)]
  · rw [if_neg (by simp; omega), if_pos (by simp; omega)]
  · rw [if_neg (by simp; omega), if_neg (by simp; omega), if_pos (by simp; omega)]
  · rw [if_neg (by simp; omega), if_neg (by simp; omega), if_neg (by simp; omega)]

/-- C5 witness: the boundary scores 90, 89, 80 and 79. -/
theorem complianceLevel_thresholds_witness :
    complianceLevelJS (JSNum.val 90) = "Excelente" ∧
    complianceLevelJS (JSNum.val 89) = "Cumple" ∧
    complianceLevelJS (JSNum.val 80) = "Cumple" ∧
    complianceLevelJS (JSNum.val 79) = "Parcial" :=
  ⟨(complianceLevel_thresholds 90).1 (by decide),
   (complianceLevel_thresholds 89).2.1 (by decide),
   (complianceLevel_thresholds 80).2.1 (by decide),
   (complianceLevel_thresholds 79).2.2.1 (by decide)⟩

/-! ## Claim C6 — the six-score scenario -/

/-- C6 counterexample: with all six categories executing at scores
[100, 100, 100, 100, 100, 40] the run completes, but the overall score is
`round(540 / 6) = 90`, not 73, and the compliance level is not Partial. -/
theorem analyze_six_scores_cex :
    (analyze envSix).row.status = "completed" ∧
    (analyze envSix).row.overall_score = some (JSNum.val 90) ∧
    (analyze envSix).row.overall_score ≠ some (JSNum.val 73) ∧
    (analyze envSix).row.compliance_level ≠ some "Parcial" := by decide

/-- C6 amended: on a navigable target where all six categories execute
with scores [100, 100, 100, 100, 100, 40], the run finishes completed with
overall score 90 and compliance level `Excelente` (Excellent) — the mean
of those six scores is 90, not 73. -/
theorem analyze_six_scores :
    (analyze envSix).row.status = "completed" ∧
    (analyze envSix).row.overall_score = some (JSNum.val 90) ∧
    (analyze envSix).row.compliance_level = some "Excelente" := by decide

/-! ## Claim C9 — page release on every exit path -/

/-- C9: every execution of `analyze` creates the browser page and leaves
the page slot closed — the `finally` block runs on the normal completion
path, on session-fatal failures and on any other raised error alike — and
the release operation is idempotent. -/
theorem analyze_page_release (env : Env) (s : PageSlot) :
    (analyze env).pageCreated = true ∧ (analyze env).pageOpen = false ∧
    releasePage (releasePage s) = releasePage s := by
  refine ⟨?_, ?_, ?_⟩
  · rcases analyze_shape env with ⟨pub, tests, cr, ctn, cc, msg, h⟩ | h <;>
      rw [h] <;> rfl
  · rcases analyze_shape env with ⟨pub, tests, cr, ctn, cc, msg, h⟩ | h <;>
      rw [h] <;> rfl
  · rcases s with ⟨_ | p⟩ <;> rfl

/-! ## Claim C10 — transactional deleteAnalysis -/

/-- C10: `deleteAnalysis` removes the run row together with all of its
test results and accessibility violations inside one transaction; rows of
other runs are untouched; if any of the three deletes fails the state is
unchanged and the error is rethrown; the returned flag is `true` exactly
when a run row with the given id existed (and was deleted). -/
theorem deleteAnalysis_transactional (db : DB) (id : String) :
    (∀ k : Fin 3, deleteAnalysis db id (some k) = (db, none)) ∧
    (∀ a, a ∈ (deleteAnalysis db id none).1.analyses ↔
        a ∈ db.analyses ∧ a.id ≠ id) ∧
    (∀ t, t ∈ (deleteAnalysis db id none).1.testResults ↔
        t ∈ db.testResults ∧ t.analysis_id ≠ id) ∧
    (∀ v, v ∈ (deleteAnalysis db id none).1.violations ↔
        v ∈ db.violations ∧ v.analysis_id ≠ id) ∧
    ((deleteAnalysis db id none).2 = some true ↔
        ∃ a ∈ db.analyses, a.id = id) := by
  refine ⟨?_, ?_, ?_, ?_, ?_⟩
  · intro k
    fin_cases k <;> rfl
  · intro a
    simp [deleteAnalysis, List.mem_filter, bne_iff_ne]
  · intro t
    simp [deleteAnalysis, List.mem_filter, bne_iff_ne]
  · intro v
    simp [deleteAnalysis, List.mem_filter, bne_iff_ne]
  · simp [deleteAnalysis]

/-- C10 witness: the theorem applied to a concrete database holding one
completed run with one test result and one violation. -/
theorem deleteAnalysis_transactional_witness :
    deleteAnalysis dbEx "run-1" (some 0) = (dbEx, none) ∧
    (deleteAnalysis dbEx "run-1" none).2 = some true := by
  have h := deleteAnalysis_transactional dbEx "run-1"
  exact ⟨h.1 0, h.2.2.2.2.mpr ⟨rowCompleted, by decide, by decide⟩⟩

/-! ## Claim C3 — containment of category failures -/

/-- C3: when navigation succeeded and persistence does not fail, the run
completes regardless of which category evaluators throw; every selected
known category receives an outcome — the evaluator's score with its
derived status, or score 0 with status `failed` when the evaluator threw —
and for every throwing category a synthetic failed test result with score
0 under that category is recorded.  In particular a throw never prevents
the remaining categories from running and never by itself turns the final
status from `completed` into `failed`. -/
theorem analyze_category_containment (env : Env) (status : ℕ)
    (hnav : env.nav = NavResult.resp status) (hst : status < 400)
    (hsave : env.saveFails = none) :
    (analyze env).row.status = "completed" ∧
    (∀ c ∈ selectedCategories env, c ∈ knownCategories →
      lookupRes (analyze env).categoryResults c = some (expectedOutcome env c)) ∧
    (∀ c ∈ selectedCategories env, c ∈ knownCategories →
      ∀ m, env.evalFor c = EvalResult.err m →
        lookupRes (analyze env).categoryResults c = some (0, "failed") ∧
        ∃ t ∈ (analyze env).tests, t.category = c ∧ t.status = "failed" ∧
          t.score = some 0) := by
  have hred : analyze env = completeRun env (mainState env) (mainPublished env) := by
    unfold analyze analyzeMain
    rw [hnav]
    dsimp only
    rw [if_neg (by omega), hsave]
  rw [hred]
  refine ⟨(completeRun_row env _ _).1, ?_, ?_⟩
  · intro c hcl hck
    show lookupRes (mainState env).results c = _
    exact runCats_lookup_mem env _ _ _ hcl hck
  · intro c hcl hck m hm
    constructor
    · have h : lookupRes (mainState env).results c = some (expectedOutcome env c) :=
        runCats_lookup_mem env _ _ _ hcl hck
      rw [show expectedOutcome env c = (0, "failed") from by
        unfold expectedOutcome; rw [hm]] at h
      exact h
    · refine ⟨errorTestResult env.analysisId c ("Ejecutando " ++ testNames c) m,
        ?_, rfl, rfl, rfl⟩
      rw [completeRun_tests]
      exact List.mem_append_left _
        (runCats_savedErr_err env (selectedCategories env).length
          (selectedCategories env) mainInit hcl hck hm)

/-- C3 witness: the `seguridad` evaluator throws mid-run while the other
five categories score 90 each; the run still completes, `seguridad` gets
outcome score 0 / failed with a synthetic failed test result, and the
failed category contributes 0 to the average:
overall = round(450 / 6) = 75, compliance `Parcial`. -/
theorem analyze_category_containment_witness :
    (analyze envSecurity).row.status = "completed" ∧
    lookupRes (analyze envSecurity).categoryResults "seguridad" =
      some (0, "failed") ∧
    (∃ t ∈ (analyze envSecurity).tests, t.category = "seguridad" ∧
      t.status = "failed" ∧ t.score = some 0) ∧
    (analyze envSecurity).row.overall_score = some (JSNum.val 75) ∧
    (analyze envSecurity).row.compliance_level = some "Parcial" := by
  have h := analyze_category_containment envSecurity 200 rfl (by decide) rfl
  have h3 := h.2.2 "seguridad" (by decide) (by decide) "Error de DOM" (by decide)
  exact ⟨h.1, h3.1, h3.2, by decide, by decide⟩

/-! ## Claim C7 — session-fatal failure records -/

/-- C7 counterexample: an HTTP 404 response leaves the run failed with the
overall score absent, but it records **two** failed test results, not one,
and the classified record's category is `http`, not `navigation` (the
outer error handler appends a second, `system`-category copy). -/
theorem analyze_http404_cex :
    (analyze env404).row.status = "failed" ∧
    (analyze env404).tests.length = 2 ∧
    (analyze env404).tests.map (fun t => t.category) = ["http", "system"] ∧
    (analyze env404).row.overall_score = none := by decide

/-- C7 amended: a session-fatal failure — an HTTP status ≥ 400 (such as
404), a thrown navigation error, or a missing response — always finishes
the run with status `failed` and the overall score absent, and records
exactly two failed score-0 test results: the classified record (category
`http` for bad HTTP statuses, `navigation` for navigation errors and
missing responses) followed by the `system`-category record written again
by the outer error handler. -/
theorem analyze_session_fatal (env : Env) :
    (∀ status, env.nav = NavResult.resp status → 400 ≤ status →
      (analyze env).row.status = "failed" ∧
      (analyze env).row.overall_score = none ∧
      (analyze env).tests.map (fun t => t.category) = ["http", "system"] ∧
      ∀ t ∈ (analyze env).tests, t.status = "failed" ∧ t.score = some 0) ∧
    (∀ m, env.nav = NavResult.errNav m →
      (analyze env).row.status = "failed" ∧
      (analyze env).row.overall_score = none ∧
      (analyze env).tests.map (fun t => t.category) = ["navigation", "system"] ∧
      ∀ t ∈ (analyze env).tests, t.status = "failed" ∧ t.score = some 0) ∧
    (env.nav = NavResult.noResponse →
      (analyze env).row.status = "failed" ∧
      (analyze env).row.overall_score = none ∧
      (analyze env).tests.map (fun t => t.category) = ["navigation", "system"] ∧
      ∀ t ∈ (analyze env).tests, t.status = "failed" ∧ t.score = some 0) := by
  refine ⟨fun status hnav h4 => ?_, fun m hnav => ?_, fun hnav => ?_⟩
  · have hred : analyze env = finishFail env [ev5 env, ev10 env]
        [errorTestResult env.analysisId "http" "Cargando página web"
          (httpErrorMessage env.url status)]
        [] "Cargando página web" "system" (httpErrorMessage env.url status) := by
      unfold analyze
      rw [hnav]
      dsimp only
      rw [if_pos h4]
    rw [hred]
    obtain ⟨h1, _, _, ho, _⟩ := finishFail_row env _ _ _ _ _ _
    refine ⟨h1, ho, rfl, ?_⟩
    intro t ht
    rw [finishFail_tests] at ht
    simp only [List.mem_append, List.mem_singleton] at ht
    rcases ht with rfl | rfl <;> exact ⟨rfl, rfl⟩
  · have hred : analyze env = finishFail env [ev5 env, ev10 env]
        [errorTestResult env.analysisId "navigation" "Cargando página web" m]
        [] "Cargando página web" "system" (navErrorMessage env.url m) := by
      unfold analyze
      rw [hnav]
    rw [hred]
    obtain ⟨h1, _, _, ho, _⟩ := finishFail_row env _ _ _ _ _ _
    refine ⟨h1, ho, rfl, ?_⟩
    intro t ht
    rw [finishFail_tests] at ht
    simp only [List.mem_append, List.mem_singleton] at ht
    rcases ht with rfl | rfl <;> exact ⟨rfl, rfl⟩
  · have hred : analyze env = finishFail env [ev5 env, ev10 env]
        [errorTestResult env.analysisId "navigation" "Cargando página web"
          ("No se pudo obtener respuesta del servidor para " ++ env.url)]
        [] "Cargando página web" "system"
        ("No se pudo obtener respuesta del servidor para " ++ env.url) := by
      unfold analyze
      rw [hnav]
    rw [hred]
    obtain ⟨h1, _, _, ho, _⟩ := finishFail_row env _ _ _ _ _ _
    refine ⟨h1, ho, rfl, ?_⟩
    intro t ht
    rw [finishFail_tests] at ht
    simp only [List.mem_append, List.mem_singleton] at ht
    rcases ht with rfl | rfl <;> exact ⟨rfl, rfl⟩

/-- C7 witness: the amended theorem applied to the concrete HTTP 404 run. -/
theorem analyze_session_fatal_witness :
    (analyze env404).row.status = "failed" ∧
    (analyze env404).row.overall_score = none ∧
    (analyze env404).tests.map (fun t => t.category) = ["http", "system"] := by
  have h := (analyze_session_fatal env404).1 404 rfl (by decide)
  exact ⟨h.1, h.2.1, h.2.2.1⟩

/-! ## Claim C8 — progress events -/

theorem chain_progress_assemble {lp : List ℤ}
    (hc : List.Chain' (· ≤ ·) lp) (hb : ∀ x ∈ lp, 15 ≤ x ∧ x ≤ 85) :
    List.Chain' (· ≤ ·) (5 :: 10 :: 15 :: (lp ++ [90, 100])) := by
  refine List.chain'_cons'.mpr ⟨?_, List.chain'_cons'.mpr ⟨?_,
    List.chain'_cons'.mpr ⟨?_, ?_⟩⟩⟩
  · intro y hy
    simp only [List.head?_cons, Option.mem_def, Option.some.injEq] at hy
    omega
  · intro y hy
    simp only [List.head?_cons, Option.mem_def, Option.some.injEq] at hy
    omega
  · intro y hy
    rcases lp with _ | ⟨a, tl⟩
    · simp only [List.nil_append, List.head?_cons, Option.mem_def,
        Option.some.injEq] at hy
      omega
    · simp only [List.cons_append, List.head?_cons, Option.mem_def,
        Option.some.injEq] at hy
      subst hy
      exact (hb a (List.mem_cons_self a tl)).1
  · apply hc.append (List.chain'_pair.mpr (by norm_num))
    intro x hx y hy
    simp only [List.head?_cons, Option.mem_def, Option.some.injEq] at hy
    subst hy
    obtain ⟨hne, rfl⟩ := List.mem_getLast?_eq_getLast hx
    exact le_trans (hb _ (List.getLast_mem hne)).2 (by norm_num)

/-- C8 counterexample: with a sink registered, a failed run (navigation
throws) delivers the progress sequence [5, 10, 0] — the final failed event
resets progress to 0, so the delivered sequence is not monotonically
non-decreasing. -/
theorem analyze_progress_cex :
    envNavErr.sinkRegistered = true ∧
    (analyze envNavErr).events.map (fun e => e.progress) = [5, 10, 0] ∧
    ¬ List.Chain' (· ≤ ·) ((analyze envNavErr).events.map (fun e => e.progress)) := by
  refine ⟨rfl, by decide, ?_⟩
  intro h
  rw [show (analyze envNavErr).events.map (fun e => e.progress) = [5, 10, 0]
    from by decide] at h
  simp [List.chain'_cons] at h

/-- C8 amended: for a run with a registered sink, if the run completes
then the delivered progress sequence is monotonically non-decreasing and
its final event is progress 100 with status `completed`; if the run fails
the final delivered event has status `failed` and a non-empty error
message but carries progress 0 (resetting below the earlier 5%/10%/...
events, so the full sequence is not non-decreasing on that path). -/
theorem analyze_progress_events (env : Env) (hs : env.sinkRegistered = true) :
    ((analyze env).row.status = "completed" →
      List.Chain' (· ≤ ·) ((analyze env).events.map (fun e => e.progress)) ∧
      ∃ e, (analyze env).events.getLast? = some e ∧ e.progress = 100 ∧
        e.status = "completed") ∧
    ((analyze env).row.status = "failed" →
      ∃ e, (analyze env).events.getLast? = some e ∧ e.status = "failed" ∧
        e.progress = 0 ∧ ∃ m, e.error = some m ∧ m ≠ "") := by
  rcases analyze_shape env with ⟨pub, tests, cr, ctn, cc, msg, h⟩ | h
  · obtain ⟨h1, _, _, _, _⟩ := finishFail_row env pub tests cr ctn cc msg
    rw [h]
    refine ⟨fun hc => absurd (h1.symm.trans hc) (by decide), fun _ => ?_⟩
    rw [finishFail_events env pub tests cr ctn cc msg hs]
    refine ⟨mkEvent env.analysisId "failed" 0 none 0
        (some (if msg = "" then "Error desconocido durante el análisis" else msg)),
      List.getLast?_concat _, rfl, rfl,
      (if msg = "" then "Error desconocido durante el análisis" else msg),
      rfl, ?_⟩
    by_cases hm : msg = ""
    · simp [hm]
    · simp [hm]
  · obtain ⟨h1, _, _, _, _⟩ := completeRun_row env (mainState env) (mainPublished env)
    rw [h]
    refine ⟨fun _ => ⟨?_, ?_⟩,
      fun hf => absurd (h1.symm.trans hf) (by decide)⟩
    · rw [completeRun_events env _ _ hs]
      rcases hcats : selectedCategories env with _ | ⟨c0, rest⟩
      · have hms : mainState env = mainInit := by
          rw [mainState, hcats]
          rfl
        unfold mainPublished
        rw [hms]
        have heq : (([ev5 env, ev10 env, ev15 env] ++ mainInit.events ++
            [ev90 env]) ++ [ev100 env]).map (fun e => e.progress) =
            ([5, 10, 15, 90, 100] : List ℤ) := by
          simp [mainInit, ev5, ev10, ev15, ev90, ev100, mkEvent]
        rw [heq]
        exact @chain_progress_assemble [] List.chain'_nil
          (fun x hx => absurd hx (List.not_mem_nil x))
      · have hn : 0 < (selectedCategories env).length := by
          rw [hcats]
          simp
        obtain ⟨hchain, hbound, hcomp⟩ := runCats_events_inv env
          (n := (selectedCategories env).length) (selectedCategories env)
          mainInit (by simp [mainInit]) (by simp [mainInit]) (by simp [mainInit])
        unfold mainPublished
        have heq : (([ev5 env, ev10 env, ev15 env] ++ (mainState env).events ++
            [ev90 env]) ++ [ev100 env]).map (fun e => e.progress) =
            5 :: 10 :: 15 :: ((mainState env).events.map (fun e => e.progress) ++
              [90, 100]) := by
          simp [ev5, ev10, ev15, ev90, ev100, mkEvent]
        rw [heq]
        apply chain_progress_assemble
        · exact hchain
        · intro x hx
          obtain ⟨e, he, rfl⟩ := List.mem_map.mp hx
          refine ⟨(hbound e he).1, le_trans (hbound e he).2 ?_⟩
          exact catProgress_le _ hn hcomp
    · rw [completeRun_events env _ _ hs]
      exact ⟨ev100 env, List.getLast?_concat _, rfl, rfl⟩

/-- C8 witness: the amended theorem applied to a completed run (envSix:
monotone sequence ending in the 100%/completed event) and to a failed run
(envNavErr: final event failed with a non-empty error). -/
theorem analyze_progress_events_witness :
    List.Chain' (· ≤ ·) ((analyze envSix).events.map (fun e => e.progress)) ∧
    (∃ e, (analyze envSix).events.getLast? = some e ∧ e.progress = 100 ∧
      e.status = "completed") ∧
    (∃ e, (analyze envNavErr).events.getLast? = some e ∧ e.status = "failed" ∧
      e.progress = 0 ∧ ∃ m, e.error = some m ∧ m ≠ "") := by
  have h1 := (analyze_progress_events envSix rfl).1 (by decide)
  have h2 := (analyze_progress_events envNavErr rfl).2 (by decide)
  exact ⟨h1.1, h1.2, h2⟩

end Nortic
